import Mathlib

/-!
Shallow embedding of the Connect4 server core (Go sources: games/constants.go,
games/models.go, the bot search engine, api/handlers.go, db/connection.go,
db/db.go).  Boards are lists of rows of cell values; Go `time.Time` values are
modelled as natural numbers passed in by the caller; Go functions that mutate a
`*Game` in place are modelled as functions returning the updated `Game`.
-/

namespace Connect4

/-- games/constants.go: board dimensions. -/
def BoardWidth : Nat := 7

def BoardHeight : Nat := 6

/-- games/constants.go: cell values. -/
def EmptyCell : Nat := 0

def RedToken : Nat := 1

def YellowToken : Nat := 2

/-- games/models.go `GameStatus`. -/
inductive GameStatus where
  | waiting
  | active
  | finished
deriving DecidableEq, Repr

/-- games/models.go `GameType`. -/
inductive GameType where
  | single
  | local
  | online
deriving DecidableEq, Repr

/-- The board: 6 rows (row 0 is the top) of 7 cells, as in `[][]int`. -/
abbrev Board := List (List Nat)

/-- Read `board[r][c]`; out-of-range reads default to 0 (the Go code only
indexes in range). -/
def getCell (b : Board) (r c : Nat) : Nat :=
  (b.getD r []).getD c 0

/-- Write `board[r][c] = v` (no-op out of range; the Go code only writes in
range). -/
def setCell (b : Board) (r c : Nat) (v : Nat) : Board :=
  b.set r ((b.getD r []).set c v)

/-- A board with the dimensions every board in the program has: 6 rows of 7
cells. -/
def WFBoard (b : Board) : Prop :=
  b.length = BoardHeight ∧ ∀ row ∈ b, row.length = BoardWidth

/-- games/models.go `NewBoard`: the all-empty 6x7 board. -/
def NewBoard : Board :=
  List.replicate BoardHeight (List.replicate BoardWidth EmptyCell)

/-- The bot seat data of games/bot code `BotPlayer` (the per-invocation mutable
fields `TransTable`, `NodesExplored`, `StartTime` are modelled separately as
`BotState`). -/
structure Bot where
  playerID : String
  playerToken : Nat
  opponentToken : Nat
deriving DecidableEq, Repr

/-- `NewBotPlayer`. -/
def NewBotPlayer (playerID : String) (playerToken : Nat) : Bot :=
  let opponentToken := if playerToken == RedToken then YellowToken else RedToken
  { playerID := playerID, playerToken := playerToken, opponentToken := opponentToken }

/-- games/models.go `Game`.  `lastMoveTime`/`createdAt` are abstract clock
readings. -/
structure Game where
  id : String
  type : GameType
  board : Board
  currentTurn : Nat
  player1Id : String
  player2Id : String
  winnerId : String
  status : GameStatus
  lastMoveTime : Nat
  createdAt : Nat
  bot : Option Bot
deriving DecidableEq, Repr

/-- games/models.go `NewGame`; the generated id and `time.Now()` reading are
parameters. -/
def NewGame (gameType : GameType) (player1Id player2Id : String)
    (id : String) (createdAt : Nat) : Game :=
  { id := id
    type := gameType
    board := NewBoard
    currentTurn := RedToken  -- Red always starts
    player1Id := player1Id
    player2Id := player2Id
    winnerId := ""
    status := GameStatus.waiting
    lastMoveTime := 0
    createdAt := createdAt
    bot := if player1Id == "bot" then some (NewBotPlayer player1Id RedToken)
           else if player2Id == "bot" then some (NewBotPlayer player2Id YellowToken)
           else none }

/-- The walk of games/models.go `countConsecutive`: starting at `(r, c)`, count
cells equal to `playerToken` while stepping by `(rowDelta, colDelta)` and
staying on the board.  The Go loop terminates because every step moves by a
non-zero delta; `fuel` bounds the walk and, at `13`, exceeds the length of any
in-bounds run (at most 7 cells). -/
def countConsecutiveAux (b : Board) (r c rowDelta colDelta : Int)
    (playerToken : Nat) : Nat → Nat
  | 0 => 0
  | fuel + 1 =>
    if 0 ≤ r ∧ r < (BoardHeight : Int) ∧ 0 ≤ c ∧ c < (BoardWidth : Int) ∧
        getCell b r.toNat c.toNat = playerToken then
      1 + countConsecutiveAux b (r + rowDelta) (c + colDelta) rowDelta colDelta playerToken fuel
    else 0

/-- games/models.go `countConsecutive`. -/
def countConsecutive (b : Board) (row col rowDelta colDelta : Int)
    (playerToken : Nat) : Nat :=
  countConsecutiveAux b row col rowDelta colDelta playerToken 13

/-- games/models.go `checkWinCondition`: on each of the four axes through the
placed cell, the counts in the two opposite directions (each including the
placed cell) minus one total at least 4. -/
def checkWinCondition (b : Board) (row col : Nat) (playerToken : Nat) : Bool :=
  let r : Int := row
  let c : Int := col
  (countConsecutive b r c 0 1 playerToken + countConsecutive b r c 0 (-1) playerToken - 1 ≥ 4) ||
  (countConsecutive b r c 1 0 playerToken + countConsecutive b r c (-1) 0 playerToken - 1 ≥ 4) ||
  (countConsecutive b r c (-1) 1 playerToken + countConsecutive b r c 1 (-1) playerToken - 1 ≥ 4) ||
  (countConsecutive b r c (-1) (-1) playerToken + countConsecutive b r c 1 1 playerToken - 1 ≥ 4)

/-- games/models.go `isBoardFull`: every top-row cell is occupied. -/
def isBoardFull (b : Board) : Bool :=
  (List.range BoardWidth).all fun col => getCell b 0 col != EmptyCell

/-- The scan of games/models.go `MakeMove` locating the bottom-most empty row
of a column: `r` runs from `fuel - 1` down to 0. -/
def findDropRowAux (b : Board) (col : Nat) : Nat → Option Nat
  | 0 => none
  | r + 1 => if getCell b r col = EmptyCell then some r else findDropRowAux b col r

/-- The full scan: rows `BoardHeight - 1` down to 0; `none` is Go's `row == -1`
(column full). -/
def findDropRow (b : Board) (col : Nat) : Option Nat :=
  findDropRowAux b col BoardHeight

/-- The token-determination step of `MakeMove`: `player1Id` plays red,
`player2Id` yellow, anyone else is not a participant. -/
def playerToken (g : Game) (playerID : String) : Option Nat :=
  if playerID == g.player1Id then some RedToken
  else if playerID == g.player2Id then some YellowToken
  else none

/-- The mutation part of `MakeMove` after all validation passed: place the
token, check win, check draw, otherwise flip the turn and stamp the time. -/
def applyDrop (g : Game) (tok row col now : Nat) : Game :=
  if checkWinCondition (setCell g.board row col tok) row col tok then
    { g with board := setCell g.board row col tok, status := GameStatus.finished,
             winnerId := if tok == RedToken then g.player1Id else g.player2Id }
  else if isBoardFull (setCell g.board row col tok) then
    { g with board := setCell g.board row col tok, status := GameStatus.finished }
  else
    { g with board := setCell g.board row col tok,
             currentTurn := if g.currentTurn == RedToken then YellowToken else RedToken,
             lastMoveTime := now }

/-- games/models.go `MakeMove`.  The Go method mutates `g` and returns an
`error`; here it returns the error message (if any) together with the
resulting game, the unchanged `g` on every error path. -/
def MakeMove (g : Game) (playerID : String) (column : Int) (now : Nat) :
    Option String × Game :=
  if g.status ≠ GameStatus.active then (some "game is not active", g)
  else
    match playerToken g playerID with
    | none => (some "player is not in this game", g)
    | some tok =>
      if tok ≠ g.currentTurn then (some "not your turn", g)
      else if column < 0 ∨ (BoardWidth : Int) ≤ column then (some "invalid column", g)
      else
        match findDropRow g.board column.toNat with
        | none => (some "column is full", g)
        | some row => (none, applyDrop g tok row column.toNat now)

/-! ## The search engine (bot source file) -/

/-- Bot constants. -/
def WinScore : Int := 1000000

def ThreeInRow : Int := 1000

def TwoInRow : Int := 10

def OneInRow : Int := 1

def MaxDepth : Nat := 7

/-- `math.MinInt32` / `math.MaxInt32`, used as alpha-beta sentinels. -/
def minInt32 : Int := -2147483648

def maxInt32 : Int := 2147483647

/-- The per-invocation mutable state of `BotPlayer`: the transposition table
(an association list where the most recent entry for a key wins, matching Go
map assignment), the `NodesExplored` counter, and a counter of how many
`time.Since(StartTime) > TimeLimit` checks have been performed so far. -/
structure BotState where
  transTable : List (String × Int)
  nodes : Nat
  clock : Nat
deriving Repr

/-- The wall clock is abstracted as an oracle answering the `n`-th elapsed-time
check; `tick` performs one check. -/
def tick (oracle : Nat → Bool) (st : BotState) : Bool × BotState :=
  (oracle st.clock, { st with clock := st.clock + 1 })

/-- The oracle of a run in which the time limit is never hit. -/
def neverExpire : Nat → Bool := fun _ => false

/-- Bot `isValidMove`: in-range column whose top cell is empty. -/
def isValidMove (b : Board) (col : Int) : Bool :=
  0 ≤ col && col < (BoardWidth : Int) && getCell b 0 col.toNat == EmptyCell

/-- Bot `getNextAvailableRow`: same bottom-up scan as the one inside
games/models.go `MakeMove`; `none` is Go's `-1`. -/
def getNextAvailableRow (b : Board) (col : Nat) : Option Nat :=
  findDropRow b col

/-- Bot `checkWin`: per axis, 1 for the placed cell plus walks from the two
adjacent cells outward (each walk is the loop shape of `countConsecutiveAux`). -/
def botCheckWin (b : Board) (row col : Nat) (playerToken : Nat) : Bool :=
  let r : Int := row
  let c : Int := col
  (1 + countConsecutiveAux b r (c + 1) 0 1 playerToken 13
     + countConsecutiveAux b r (c - 1) 0 (-1) playerToken 13 ≥ 4) ||
  (1 + countConsecutiveAux b (r + 1) c 1 0 playerToken 13
     + countConsecutiveAux b (r - 1) c (-1) 0 playerToken 13 ≥ 4) ||
  (1 + countConsecutiveAux b (r - 1) (c + 1) (-1) 1 playerToken 13
     + countConsecutiveAux b (r + 1) (c - 1) 1 (-1) playerToken 13 ≥ 4) ||
  (1 + countConsecutiveAux b (r - 1) (c - 1) (-1) (-1) playerToken 13
     + countConsecutiveAux b (r + 1) (c + 1) 1 1 playerToken 13 ≥ 4)

/-- Bot `isBoardFull` (textually identical to the games/models.go one). -/
def botIsBoardFull (b : Board) : Bool :=
  isBoardFull b

/-- Bot `countEmptySlots`. -/
def countEmptySlots (b : Board) : Nat :=
  ((List.range BoardHeight).map fun row =>
    ((List.range BoardWidth).filter fun col => getCell b row col == EmptyCell).length).sum

/-- Bot `boardToString`: row-major digits `'0' + cell`. -/
def boardToString (b : Board) : String :=
  (List.range BoardHeight).foldl
    (fun s row => (List.range BoardWidth).foldl
      (fun s col => s.push (Char.ofNat (48 + getCell b row col))) s) ""

/-- Bot `evaluateWindow`: count own / opponent / other cells of a 4-window and
score it. -/
def evaluateWindow (bot : Bot) (window : List Nat) : Int :=
  let counts := window.foldl
    (fun (acc : Nat × Nat × Nat) cell =>
      if cell == bot.playerToken then (acc.1 + 1, acc.2.1, acc.2.2)
      else if cell == bot.opponentToken then (acc.1, acc.2.1 + 1, acc.2.2)
      else (acc.1, acc.2.1, acc.2.2 + 1))
    (0, 0, 0)
  let playerCount := counts.1
  let opponentCount := counts.2.1
  let emptyCount := counts.2.2
  if playerCount == 4 then WinScore
  else if playerCount == 3 && emptyCount == 1 then ThreeInRow
  else if playerCount == 2 && emptyCount == 2 then TwoInRow
  else if playerCount == 1 && emptyCount == 3 then OneInRow
  else if opponentCount == 3 && emptyCount == 1 then -ThreeInRow * 2
  else if opponentCount == 2 && emptyCount == 2 then -TwoInRow
  else 0

/-- Bot `evaluateBoard`: sum `evaluateWindow` over every 4-window on every
axis, plus 3 per own token in the center column. -/
def evaluateBoard (bot : Bot) (b : Board) : Int :=
  let horiz := ((List.range BoardHeight).map fun row =>
    (((List.range (BoardWidth - 3)).map fun col =>
      evaluateWindow bot [getCell b row col, getCell b row (col + 1),
        getCell b row (col + 2), getCell b row (col + 3)])).sum).sum
  let vert := ((List.range BoardWidth).map fun col =>
    (((List.range (BoardHeight - 3)).map fun row =>
      evaluateWindow bot [getCell b row col, getCell b (row + 1) col,
        getCell b (row + 2) col, getCell b (row + 3) col])).sum).sum
  let diagUp := ((List.range (BoardHeight - 3)).map fun i =>
    (((List.range (BoardWidth - 3)).map fun col =>
      evaluateWindow bot [getCell b (i + 3) col, getCell b (i + 2) (col + 1),
        getCell b (i + 1) (col + 2), getCell b i (col + 3)])).sum).sum
  let diagDown := ((List.range (BoardHeight - 3)).map fun row =>
    (((List.range (BoardWidth - 3)).map fun col =>
      evaluateWindow bot [getCell b row col, getCell b (row + 1) (col + 1),
        getCell b (row + 2) (col + 2), getCell b (row + 3) (col + 3)])).sum).sum
  let centerCol := BoardWidth / 2
  let centerCount :=
    ((List.range BoardHeight).filter fun row => getCell b row centerCol == bot.playerToken).length
  horiz + vert + diagUp + diagDown + (centerCount : Int) * 3

/-- Transposition-table lookup (Go map read). -/
def lookupTT (table : List (String × Int)) (key : String) : Option Int :=
  table.lookup key

/-- Transposition-table store (Go map write; the new entry shadows any old
one). -/
def storeTT (st : BotState) (key : String) (score : Int) : BotState :=
  { st with transTable := (key, score) :: st.transTable }

/-- The maximizing column loop of `minimax`: try each column; a simulated own
win returns `WinScore` from the whole call (`some` in the first component);
otherwise recurse via `next` (the depth-1 search), update `maxScore`/`alpha`,
and stop on a beta cutoff.  A full column being reported by
`getNextAvailableRow` as `none` cannot happen after `isValidMove` (Go would
panic there); that branch skips the column. -/
def maxLoop (bot : Bot) (next : Board → Int → Int → BotState → Int × BotState)
    (board : Board) : List Nat → Int → Int → Int → BotState →
    Option Int × Int × BotState
  | [], maxScore, _, _, st => (none, maxScore, st)
  | col :: rest, maxScore, alpha, beta, st =>
    if isValidMove board (col : Int) then
      match getNextAvailableRow board col with
      | none => maxLoop bot next board rest maxScore alpha beta st
      | some row =>
        let b := setCell board row col bot.playerToken
        if botCheckWin b row col bot.playerToken then (some WinScore, maxScore, st)
        else
          let res := next b alpha beta st
          let maxScore' := max maxScore res.1
          let alpha' := max alpha maxScore'
          if beta ≤ alpha' then (none, maxScore', res.2)
          else maxLoop bot next board rest maxScore' alpha' beta res.2
    else maxLoop bot next board rest maxScore alpha beta st

/-- The minimizing column loop of `minimax`: symmetric to `maxLoop` with the
opponent's token, `-WinScore` on a simulated opponent win, and an alpha
cutoff. -/
def minLoop (bot : Bot) (next : Board → Int → Int → BotState → Int × BotState)
    (board : Board) : List Nat → Int → Int → Int → BotState →
    Option Int × Int × BotState
  | [], minScore, _, _, st => (none, minScore, st)
  | col :: rest, minScore, alpha, beta, st =>
    if isValidMove board (col : Int) then
      match getNextAvailableRow board col with
      | none => minLoop bot next board rest minScore alpha beta st
      | some row =>
        let b := setCell board row col bot.opponentToken
        if botCheckWin b row col bot.opponentToken then (some (-WinScore), minScore, st)
        else
          let res := next b alpha beta st
          let minScore' := min minScore res.1
          let beta' := min beta minScore'
          if beta' ≤ alpha then (none, minScore', res.2)
          else minLoop bot next board rest minScore' alpha beta' res.2
    else minLoop bot next board rest minScore alpha beta st

/-- Bot `minimax` with alpha-beta pruning, fueled by `depth`.  Order of the Go
body: time check, node count, transposition lookup, full-board draw, depth
limit, then the maximizing or minimizing loop whose completed score is stored
in the table (early win returns are not stored). -/
def minimax (oracle : Nat → Bool) (bot : Bot) :
    Nat → Board → Int → Int → Bool → BotState → Int × BotState
  | depth, board, alpha, beta, maximizingPlayer, st =>
    let t := tick oracle st
    if t.1 then (0, t.2)
    else
      let st := { t.2 with nodes := t.2.nodes + 1 }
      let boardKey := boardToString board
      match lookupTT st.transTable boardKey with
      | some cachedScore => (cachedScore, st)
      | none =>
        if botIsBoardFull board then (0, st)
        else
          match depth with
          | 0 =>
            let score := evaluateBoard bot board
            (score, storeTT st boardKey score)
          | d + 1 =>
            if maximizingPlayer then
              match maxLoop bot (fun b a bb s => minimax oracle bot d b a bb false s)
                  board (List.range BoardWidth) minInt32 alpha beta st with
              | (some early, _, st') => (early, st')
              | (none, maxScore, st') => (maxScore, storeTT st' boardKey maxScore)
            else
              match minLoop bot (fun b a bb s => minimax oracle bot d b a bb true s)
                  board (List.range BoardWidth) maxInt32 alpha beta st with
              | (some early, _, st') => (early, st')
              | (none, minScore, st') => (minScore, storeTT st' boardKey minScore)

/-- The top-level column loop of `GetNextMove`: an immediate own win returns
that column; otherwise the column is scored by `minimax`, an elapsed-time check
may break out of the loop (keeping the current column if none was kept yet),
and a better score (or an equal score on the center column) updates the best
column. -/
def gnmLoop (oracle : Nat → Bool) (bot : Bot) (depthLimit : Nat) (board : Board) :
    List Nat → Int → Int → BotState → Int
  | [], _, bestMove, _ => bestMove
  | col :: rest, bestScore, bestMove, st =>
    if isValidMove board (col : Int) then
      match getNextAvailableRow board col with
      | none => gnmLoop oracle bot depthLimit board rest bestScore bestMove st
      | some row =>
        let b := setCell board row col bot.playerToken
        if botCheckWin b row col bot.playerToken then (col : Int)
        else
          let res := minimax oracle bot (depthLimit - 1) b minInt32 maxInt32 false st
          let t := tick oracle res.2
          if t.1 then (if bestMove == -1 then (col : Int) else bestMove)
          else if res.1 > bestScore || (res.1 == bestScore && col == BoardWidth / 2) then
            gnmLoop oracle bot depthLimit board rest res.1 (col : Int) t.2
          else
            gnmLoop oracle bot depthLimit board rest bestScore bestMove t.2
    else gnmLoop oracle bot depthLimit board rest bestScore bestMove st

/-- Bot `GetNextMove`: fresh invocation state, depth selection from the count
of empty slots, the column loop, and the fallback to the first valid column
when no best column was kept. -/
def GetNextMove (oracle : Nat → Bool) (bot : Bot) (g : Game) : Int :=
  let st0 : BotState := { transTable := [], nodes := 0, clock := 0 }
  let emptySlots := countEmptySlots g.board
  let depthLimit := if emptySlots < BoardHeight * BoardWidth / 3 then 9 else MaxDepth
  let r := gnmLoop oracle bot depthLimit g.board (List.range BoardWidth) minInt32 (-1) st0
  if r == -1 then
    match (List.range BoardWidth).find? (fun (col : Nat) => isValidMove g.board (col : Int)) with
    | some col => (col : Int)
    | none => -1
  else r

/-- Dropping the given token into `col` wins immediately (the bot's simulated
move followed by its `checkWin`). -/
def isWinningMove (b : Board) (tok : Nat) (col : Nat) : Bool :=
  match getNextAvailableRow b col with
  | none => false
  | some row => botCheckWin (setCell b row col tok) row col tok

/-! ## Matchmaking (api/handlers.go `MatchMaking`, db/connection.go
`FindWaitingGame` and the lobby `joinGame` handler) -/

/-- Outcome of a matchmaking entry: the requester joined an existing game, or
a fresh waiting game was created for them. -/
inductive MMOutcome where
  | matched (g : Game)
  | created (g : Game)
deriving DecidableEq, Repr

/-- Joining a waiting game: second seat filled, status set active (identical in
both entry paths). -/
def joinGameAs (g : Game) (playerId : String) : Game :=
  { g with player2Id := playerId, status := GameStatus.active }

/-- The selection predicate of the one-shot `MatchMaking` handler. -/
def matchPred (playerId : String) (g : Game) : Bool :=
  g.type == GameType.online && g.status == GameStatus.waiting &&
  g.player1Id != playerId && g.player2Id == ""

/-- api/handlers.go `MatchMaking`: scan the game list for a joinable game,
else create a new waiting online game with the requester as first seat.  The
in-memory registry is modelled as the list `reg` in iteration order; the
generated id and clock reading of game creation are parameters. -/
def MatchMaking (reg : List Game) (playerId newId : String) (now : Nat) : MMOutcome :=
  match reg.find? (matchPred playerId) with
  | some g => MMOutcome.matched (joinGameAs g playerId)
  | none => MMOutcome.created (NewGame GameType.online playerId "" newId now)

/-- db/connection.go `FindWaitingGame`: the first game whose status is
waiting — and nothing else is checked. -/
def FindWaitingGame (reg : List Game) : Option Game :=
  reg.find? (fun g => g.status == GameStatus.waiting)

/-- The `joinGame` branch of db/connection.go `HandleGlobalConnection`
(persistent-lobby path): join the game found by `FindWaitingGame`, else create
a new waiting online game with the requester as first seat. -/
def lobbyJoin (reg : List Game) (playerId newId : String) (now : Nat) : MMOutcome :=
  match FindWaitingGame reg with
  | some g => MMOutcome.matched (joinGameAs g playerId)
  | none => MMOutcome.created (NewGame GameType.online playerId "" newId now)

/-! ## Reset handshake (db/connection.go `HandleConnection`) -/

/-- The `TypeResetConfirm` branch of `HandleConnection`: a non-participant is
rejected with an error (no state change); a participant's `confirm == true`
reinitializes the game (yellow starts when the previous `winnerId` equals
`player2Id`, red otherwise); `confirm == false` only broadcasts a rejection
(no state change). -/
def resolveResetConfirm (g : Game) (playerId : String) (confirm : Bool) (now : Nat) : Game :=
  if playerId ≠ g.player1Id ∧ playerId ≠ g.player2Id then g
  else if confirm then
    { g with status := GameStatus.active
             board := NewBoard
             currentTurn := if g.winnerId == g.player2Id then YellowToken else RedToken
             winnerId := ""
             lastMoveTime := now }
  else g

/-- Inbound envelopes handled by the per-game message loop of
`HandleConnection`. -/
inductive InMsg where
  | move (playerId : String) (column : Int)
  | joinGame (playerId : String)
  | resetRequest (playerId : String)
  | resetConfirm (playerId : String) (confirm : Bool)
deriving DecidableEq, Repr

/-- One step of the `HandleConnection` message loop, restricted to its effect
on the game state (broadcasts and directed sends carry no game-state change):
`move` goes through `MakeMove`; `joinGame` fills the second seat and activates;
`resetRequest` only relays the request to the other participant and changes
nothing; `resetConfirm` resolves as `resolveResetConfirm`.  Note the loop keeps
no handshake state of its own between messages. -/
def handleMessage (g : Game) (m : InMsg) (now : Nat) : Game :=
  match m with
  | InMsg.move playerId column => (MakeMove g playerId column now).2
  | InMsg.joinGame playerId => { g with player2Id := playerId, status := GameStatus.active }
  | InMsg.resetRequest _ => g
  | InMsg.resetConfirm playerId confirm => resolveResetConfirm g playerId confirm now

/-- Processing a sequence of inbound messages, each with its clock reading. -/
def runMessages (g : Game) (ms : List (InMsg × Nat)) : Game :=
  ms.foldl (fun g m => handleMessage g m.1 m.2) g

/-! ## Concrete instances used by witnesses and counterexamples -/

/-- A local two-player game whose column 0 holds a red three-in-a-column ready
to be completed. -/
def gameVert : Game :=
  { id := "g", type := GameType.local,
    board := [[0,0,0,0,0,0,0],[0,0,0,0,0,0,0],[0,0,0,0,0,0,0],
              [1,0,0,0,0,0,0],[1,2,0,0,0,0,0],[1,2,2,0,0,0,0]],
    currentTurn := RedToken, player1Id := "a", player2Id := "b",
    winnerId := "", status := GameStatus.active, lastMoveTime := 0,
    createdAt := 0, bot := none }

/-- A local two-player game whose column 0 is completely full. -/
def gameFullCol : Game :=
  { id := "g", type := GameType.local,
    board := [[2,0,0,0,0,0,0],[1,0,0,0,0,0,0],[2,0,0,0,0,0,0],
              [1,0,0,0,0,0,0],[2,0,0,0,0,0,0],[1,0,0,0,0,0,0]],
    currentTurn := RedToken, player1Id := "a", player2Id := "b",
    winnerId := "", status := GameStatus.active, lastMoveTime := 0,
    createdAt := 0, bot := none }

/-- A fresh local game set active (as the create-game handler does). -/
def gameFresh : Game :=
  { NewGame GameType.local "a" "b" "g" 0 with status := GameStatus.active }

/-- Board for the C4 counterexample: red (the bot) can win at once in
column 1, column 0 is legal but not winning, and yellow threatens
horizontally at column 5 (rows listed top to bottom). -/
def boardCut : Board :=
  [[0,0,0,0,0,0,0],
   [0,0,0,0,0,0,0],
   [0,0,0,0,0,0,0],
   [0,1,0,0,0,0,0],
   [0,1,0,0,0,0,0],
   [0,1,2,2,2,0,0]]

/-- The bot playing red. -/
def botRed : Bot := { playerID := "bot", playerToken := RedToken, opponentToken := YellowToken }

/-- The single-player game around `boardCut`, bot to move. -/
def gameCut : Game :=
  { id := "g", type := GameType.single, board := boardCut, currentTurn := RedToken,
    player1Id := "bot", player2Id := "alice", winnerId := "",
    status := GameStatus.active, lastMoveTime := 0, createdAt := 0, bot := some botRed }

/-- A time oracle under which the deadline has passed from the second check
on (monotone, hence a possible wall-clock behaviour). -/
def expireAfterOne : Nat → Bool := fun n => decide (1 ≤ n)

/-- A registry holding one waiting online game created by "alice" herself. -/
def regAlice : List Game :=
  [NewGame GameType.online "alice" "" "g0" 0]

/-- A finished single-player game won by the bot seated as player 2 (yellow):
yellow four-in-a-column in column 0. -/
def gameBotWon : Game :=
  { id := "g", type := GameType.single,
    board := [[0,0,0,0,0,0,0],[0,0,0,0,0,0,0],[2,0,0,0,0,0,0],
              [2,1,0,0,0,0,0],[2,1,0,0,0,0,0],[2,1,1,0,0,0,0]],
    currentTurn := YellowToken, player1Id := "alice", player2Id := "bot",
    winnerId := "bot", status := GameStatus.finished, lastMoveTime := 3,
    createdAt := 0, bot := some (NewBotPlayer "bot" YellowToken) }

/-- A finished two-player game won by player 1. -/
def gameP1Won : Game :=
  { id := "g", type := GameType.local,
    board := [[0,0,0,0,0,0,0],[0,0,0,0,0,0,0],[1,0,0,0,0,0,0],
              [1,2,0,0,0,0,0],[1,2,0,0,0,0,0],[1,2,2,0,0,0,0]],
    currentTurn := RedToken, player1Id := "a", player2Id := "b",
    winnerId := "a", status := GameStatus.finished, lastMoveTime := 3,
    createdAt := 0, bot := none }

/-! ## Helper lemmas -/

lemma getCell_setCell_eq (b : Board) (r c v : Nat)
    (hr : r < b.length) (hc : c < (b.getD r []).length) :
    getCell (setCell b r c v) r c = v := by
  unfold getCell setCell
  generalize hrow : b.getD r [] = row at hc ⊢
  rw [List.getD_eq_getElem?_getD (List.set b r (List.set row c v)) r,
    List.getElem?_set_self hr, Option.getD_some,
    List.getD_eq_getElem?_getD (List.set row c v) c,
    List.getElem?_set_self hc, Option.getD_some]

lemma getCell_setCell_ne (b : Board) (r c v r' c' : Nat)
    (h : ¬(r' = r ∧ c' = c)) :
    getCell (setCell b r c v) r' c' = getCell b r' c' := by
  unfold getCell setCell
  by_cases hrr : r' = r
  · subst hrr
    have hcc : c' ≠ c := fun hc => h ⟨rfl, hc⟩
    generalize hrow : b.getD r' [] = row
    by_cases hr : r' < b.length
    · rw [List.getD_eq_getElem?_getD (List.set b r' (List.set row c v)) r',
        List.getElem?_set_self hr, Option.getD_some,
        List.getD_eq_getElem?_getD (List.set row c v) c',
        List.getElem?_set_ne (Ne.symm hcc), ← List.getD_eq_getElem?_getD]
    · rw [List.set_eq_of_length_le (by omega), hrow]
  · rw [List.getD_eq_getElem?_getD (List.set b r ((b.getD r []).set c v)) r',
      List.getElem?_set_ne (Ne.symm hrr), ← List.getD_eq_getElem?_getD]

lemma WFBoard.rowLen {b : Board} (h : WFBoard b) {r : Nat} (hr : r < BoardHeight) :
    (b.getD r []).length = BoardWidth := by
  obtain ⟨hl, hrows⟩ := h
  have hr' : r < b.length := by omega
  rw [List.getD_eq_getElem?_getD, List.getElem?_eq_getElem hr']
  exact hrows _ (List.getElem_mem hr')

lemma findDropRowAux_spec (b : Board) (col : Nat) :
    ∀ n row, findDropRowAux b col n = some row →
      row < n ∧ getCell b row col = EmptyCell ∧
      ∀ r, row < r → r < n → getCell b r col ≠ EmptyCell := by
  intro n
  induction n with
  | zero => intro row h; simp [findDropRowAux] at h
  | succ m ih =>
    intro row h
    unfold findDropRowAux at h
    by_cases hm : getCell b m col = EmptyCell
    · simp only [hm, if_pos rfl] at h
      cases h
      exact ⟨Nat.lt_succ_self m, hm, fun r h1 h2 => absurd (by omega) (Nat.not_lt.mpr h2)⟩
    · simp only [if_neg hm] at h
      obtain ⟨h1, h2, h3⟩ := ih row h
      refine ⟨Nat.lt_succ_of_lt h1, h2, fun r hr1 hr2 => ?_⟩
      rcases Nat.lt_or_ge r m with hlt | hge
      · exact h3 r hr1 hlt
      · have : r = m := by omega
        subst this; exact hm

lemma findDropRow_isSome_of_topEmpty (b : Board) (col : Nat)
    (h : getCell b 0 col = EmptyCell) : (findDropRow b col).isSome := by
  unfold findDropRow
  have : ∀ n, 0 < n → (findDropRowAux b col n).isSome := by
    intro n
    induction n with
    | zero => intro hn; omega
    | succ m ih =>
      intro _
      unfold findDropRowAux
      by_cases hm : getCell b m col = EmptyCell
      · simp [hm]
      · rcases Nat.eq_zero_or_pos m with h0 | hpos
        · subst h0; exact absurd h hm
        · simpa [hm] using ih hpos
  exact this BoardHeight (by norm_num [BoardHeight])

/-! ### `MakeMove` branch characterizations -/

lemma makeMove_not_active {g : Game} (pid : String) (col : Int) (now : Nat)
    (h : g.status ≠ GameStatus.active) :
    MakeMove g pid col now = (some "game is not active", g) := by
  simp [MakeMove, h]

lemma makeMove_not_participant {g : Game} {pid : String} (col : Int) (now : Nat)
    (hs : g.status = GameStatus.active) (hp : playerToken g pid = none) :
    MakeMove g pid col now = (some "player is not in this game", g) := by
  simp [MakeMove, hs, hp]

lemma makeMove_not_turn {g : Game} {pid : String} {tok : Nat} (col : Int) (now : Nat)
    (hs : g.status = GameStatus.active) (hp : playerToken g pid = some tok)
    (ht : tok ≠ g.currentTurn) :
    MakeMove g pid col now = (some "not your turn", g) := by
  simp [MakeMove, hs, hp, ht]

lemma makeMove_bad_column {g : Game} {pid : String} {tok : Nat} {col : Int} (now : Nat)
    (hs : g.status = GameStatus.active) (hp : playerToken g pid = some tok)
    (ht : tok = g.currentTurn) (hc : col < 0 ∨ (BoardWidth : Int) ≤ col) :
    MakeMove g pid col now = (some "invalid column", g) := by
  simp [MakeMove, hs, hp, ht, hc]

lemma makeMove_column_full {g : Game} {pid : String} {tok : Nat} {col : Int} (now : Nat)
    (hs : g.status = GameStatus.active) (hp : playerToken g pid = some tok)
    (ht : tok = g.currentTurn) (hc : ¬(col < 0 ∨ (BoardWidth : Int) ≤ col))
    (hr : findDropRow g.board col.toNat = none) :
    MakeMove g pid col now = (some "column is full", g) := by
  simp [MakeMove, hs, hp, ht, hc, hr]

lemma makeMove_ok {g : Game} {pid : String} {tok row : Nat} {col : Int} (now : Nat)
    (hs : g.status = GameStatus.active) (hp : playerToken g pid = some tok)
    (ht : tok = g.currentTurn) (hc : ¬(col < 0 ∨ (BoardWidth : Int) ≤ col))
    (hr : findDropRow g.board col.toNat = some row) :
    MakeMove g pid col now = (none, applyDrop g tok row col.toNat now) := by
  simp [MakeMove, hs, hp, ht, hc, hr]

lemma makeMove_ok_inv {g : Game} {pid : String} {col : Int} {now : Nat} {g' : Game}
    (h : MakeMove g pid col now = (none, g')) :
    g.status = GameStatus.active ∧
    ∃ tok row, playerToken g pid = some tok ∧ tok = g.currentTurn ∧
      ¬(col < 0 ∨ (BoardWidth : Int) ≤ col) ∧
      findDropRow g.board col.toNat = some row ∧
      g' = applyDrop g tok row col.toNat now := by
  by_cases hs : g.status = GameStatus.active
  · rcases hp : playerToken g pid with _ | tok
    · rw [makeMove_not_participant col now hs hp] at h; simp at h
    · by_cases ht : tok = g.currentTurn
      · by_cases hc : col < 0 ∨ (BoardWidth : Int) ≤ col
        · rw [makeMove_bad_column now hs hp ht hc] at h; simp at h
        · rcases hr : findDropRow g.board col.toNat with _ | row
          · rw [makeMove_column_full now hs hp ht hc hr] at h; simp at h
          · rw [makeMove_ok now hs hp ht hc hr] at h
            simp only [Prod.mk.injEq, true_and] at h
            exact ⟨hs, tok, row, rfl, ht, hc, rfl, h.symm⟩
      · rw [makeMove_not_turn col now hs hp ht] at h; simp at h
  · rw [makeMove_not_active pid col now hs] at h; simp at h

lemma makeMove_err_unchanged {g : Game} {pid : String} {col : Int} {now : Nat} {e : String}
    {g' : Game} (h : MakeMove g pid col now = (some e, g')) : g' = g := by
  by_cases hs : g.status = GameStatus.active
  · rcases hp : playerToken g pid with _ | tok
    · rw [makeMove_not_participant col now hs hp] at h
      simp only [Prod.mk.injEq] at h; exact h.2.symm
    · by_cases ht : tok = g.currentTurn
      · by_cases hc : col < 0 ∨ (BoardWidth : Int) ≤ col
        · rw [makeMove_bad_column now hs hp ht hc] at h
          simp only [Prod.mk.injEq] at h; exact h.2.symm
        · rcases hr : findDropRow g.board col.toNat with _ | row
          · rw [makeMove_column_full now hs hp ht hc hr] at h
            simp only [Prod.mk.injEq] at h; exact h.2.symm
          · rw [makeMove_ok now hs hp ht hc hr] at h; simp at h
      · rw [makeMove_not_turn col now hs hp ht] at h
        simp only [Prod.mk.injEq] at h; exact h.2.symm
  · rw [makeMove_not_active pid col now hs] at h
    simp only [Prod.mk.injEq] at h; exact h.2.symm

/-! ## Claim theorems -/

/-- C10: every game returned by `NewGame` starts with `currentTurn` equal to
the red token (the first seat's token), for every game type, seat assignment,
id and creation time. -/
theorem newGame_starts_red (gameType : GameType) (player1Id player2Id id : String)
    (createdAt : Nat) :
    (NewGame gameType player1Id player2Id id createdAt).currentTurn = RedToken := rfl

/-- C3: `MakeMove` validates its preconditions in the stated order — not
active, not a participant, not the mover's turn, column out of range, column
full — each with its distinct error message, and on every error the game is
returned unchanged; in particular a full column fails with "column is full"
and changes nothing. -/
theorem makeMove_validation (g : Game) (pid : String) (col : Int) (now : Nat) :
    (∀ e g', MakeMove g pid col now = (some e, g') → g' = g) ∧
    (g.status ≠ GameStatus.active →
      MakeMove g pid col now = (some "game is not active", g)) ∧
    (g.status = GameStatus.active → playerToken g pid = none →
      MakeMove g pid col now = (some "player is not in this game", g)) ∧
    (∀ tok, g.status = GameStatus.active → playerToken g pid = some tok →
      tok ≠ g.currentTurn → MakeMove g pid col now = (some "not your turn", g)) ∧
    (∀ tok, g.status = GameStatus.active → playerToken g pid = some tok →
      tok = g.currentTurn → (col < 0 ∨ (BoardWidth : Int) ≤ col) →
      MakeMove g pid col now = (some "invalid column", g)) ∧
    (∀ tok, g.status = GameStatus.active → playerToken g pid = some tok →
      tok = g.currentTurn → ¬(col < 0 ∨ (BoardWidth : Int) ≤ col) →
      findDropRow g.board col.toNat = none →
      MakeMove g pid col now = (some "column is full", g)) ∧
    (["game is not active", "player is not in this game", "not your turn",
      "invalid column", "column is full"] : List String).Nodup := by
  refine ⟨fun e g' h => makeMove_err_unchanged h,
    fun h => makeMove_not_active pid col now h,
    fun hs hp => makeMove_not_participant col now hs hp,
    fun tok hs hp ht => makeMove_not_turn col now hs hp ht,
    fun tok hs hp ht hc => makeMove_bad_column now hs hp ht hc,
    fun tok hs hp ht hc hr => makeMove_column_full now hs hp ht hc hr,
    by decide⟩

/-- Witness for C3: a concrete full column is rejected with "column is full"
and the game comes back unchanged. -/
theorem makeMove_validation_witness :
    MakeMove gameFullCol "a" 0 5 = (some "column is full", gameFullCol) :=
  (makeMove_validation gameFullCol "a" 0 5).2.2.2.2.2.1 RedToken rfl (by decide) rfl
    (by decide) (by decide)

lemma applyDrop_win {g : Game} {tok row col : Nat} (now : Nat)
    (hw : checkWinCondition (setCell g.board row col tok) row col tok = true) :
    applyDrop g tok row col now =
      { g with board := setCell g.board row col tok, status := GameStatus.finished,
               winnerId := if tok == RedToken then g.player1Id else g.player2Id } := by
  simp [applyDrop, hw]

lemma applyDrop_draw {g : Game} {tok row col : Nat} (now : Nat)
    (hw : checkWinCondition (setCell g.board row col tok) row col tok = false)
    (hf : isBoardFull (setCell g.board row col tok) = true) :
    applyDrop g tok row col now =
      { g with board := setCell g.board row col tok, status := GameStatus.finished } := by
  simp [applyDrop, hw, hf]

lemma applyDrop_cont {g : Game} {tok row col : Nat} (now : Nat)
    (hw : checkWinCondition (setCell g.board row col tok) row col tok = false)
    (hf : isBoardFull (setCell g.board row col tok) = false) :
    applyDrop g tok row col now =
      { g with board := setCell g.board row col tok,
               currentTurn := if g.currentTurn == RedToken then YellowToken else RedToken,
               lastMoveTime := now } := by
  simp [applyDrop, hw, hf]

lemma playerToken_inv {g : Game} {pid : String} {tok : Nat}
    (h : playerToken g pid = some tok) :
    (tok = RedToken ∧ pid = g.player1Id) ∨ (tok = YellowToken ∧ pid = g.player2Id) := by
  unfold playerToken at h
  by_cases h1 : pid = g.player1Id
  · rw [if_pos (by simpa using h1)] at h
    exact Or.inl ⟨(Option.some_inj.mp h).symm, h1⟩
  · rw [if_neg (by simpa using h1)] at h
    by_cases h2 : pid = g.player2Id
    · rw [if_pos (by simpa using h2)] at h
      exact Or.inr ⟨(Option.some_inj.mp h).symm, h2⟩
    · rw [if_neg (by simpa using h2)] at h
      exact absurd h (by simp)

/-- C9: an accepted move that leaves the game active flips `currentTurn` to
the other token exactly once and stamps `lastMoveTime`; an accepted terminal
move (the game comes back finished) leaves `currentTurn` untouched; a rejected
move leaves the game, hence `currentTurn`, untouched. -/
theorem makeMove_turn_alternation (g : Game) (pid : String) (col : Int) (now : Nat) :
    (∀ g', MakeMove g pid col now = (none, g') →
      (g'.status = GameStatus.active →
        g'.currentTurn = (if g.currentTurn == RedToken then YellowToken else RedToken) ∧
        g'.currentTurn ≠ g.currentTurn ∧ g'.lastMoveTime = now) ∧
      (g'.status = GameStatus.finished → g'.currentTurn = g.currentTurn)) ∧
    (∀ e g', MakeMove g pid col now = (some e, g') → g' = g) := by
  constructor
  · intro g' h
    obtain ⟨hs, tok, row, hp, ht, hc, hr, hg'⟩ := makeMove_ok_inv h
    subst hg'
    by_cases hw : checkWinCondition (setCell g.board row col.toNat tok) row col.toNat tok = true
    · rw [applyDrop_win now hw]
      exact ⟨fun hst => by simp at hst, fun _ => rfl⟩
    · rw [Bool.not_eq_true] at hw
      by_cases hf : isBoardFull (setCell g.board row col.toNat tok) = true
      · rw [applyDrop_draw now hw hf]
        exact ⟨fun hst => by simp at hst, fun _ => rfl⟩
      · rw [Bool.not_eq_true] at hf
        rw [applyDrop_cont now hw hf]
        refine ⟨fun _ => ⟨rfl, ?_, rfl⟩, fun hst => by simp [hs] at hst⟩
        by_cases hred : g.currentTurn = RedToken
        · simp [hred, YellowToken, RedToken]
        · simp only [Game.currentTurn]
          rw [if_neg (by simpa using hred)]
          exact fun hcontra => hred hcontra.symm
  · intro e g' h
    exact makeMove_err_unchanged h

/-- Witness for C9: a concrete accepted non-terminal red move on an empty
board flips the turn to yellow and stamps the time. -/
theorem makeMove_turn_alternation_witness :
    gameFresh.currentTurn = RedToken ∧
    (MakeMove gameFresh "a" 3 42).2.currentTurn = YellowToken ∧
    (MakeMove gameFresh "a" 3 42).2.lastMoveTime = 42 := by
  have h := (makeMove_turn_alternation gameFresh "a" 3 42).1
    (MakeMove gameFresh "a" 3 42).2 (by decide)
  have h2 := h.1 (by decide)
  exact ⟨by decide, by rw [h2.1]; decide, h2.2.2⟩

/-- C1: on an accepted move, the terminal outcome is decided by
`checkWinCondition` at the placed cell (the four-axis two-direction
consecutive-count test): a win finishes the game with the mover as
`winnerId`; otherwise a full top row finishes it as a draw with `winnerId`
left empty; otherwise the game stays active — and `winnerId` is non-empty
exactly when the move won. -/
theorem makeMove_outcome (g : Game) (pid : String) (col : Int) (now : Nat) (g' : Game)
    (hpid : pid ≠ "") (hw0 : g.winnerId = "")
    (hok : MakeMove g pid col now = (none, g')) :
    ∃ tok row, playerToken g pid = some tok ∧
      findDropRow g.board col.toNat = some row ∧
      g'.board = setCell g.board row col.toNat tok ∧
      (checkWinCondition g'.board row col.toNat tok = true →
        g'.status = GameStatus.finished ∧ g'.winnerId = pid) ∧
      (checkWinCondition g'.board row col.toNat tok = false → isBoardFull g'.board = true →
        g'.status = GameStatus.finished ∧ g'.winnerId = "") ∧
      (checkWinCondition g'.board row col.toNat tok = false → isBoardFull g'.board = false →
        g'.status = GameStatus.active ∧ g'.winnerId = "") ∧
      (g'.winnerId ≠ "" ↔ checkWinCondition g'.board row col.toNat tok = true) := by
  obtain ⟨hs, tok, row, hp, ht, hc, hr, hg'⟩ := makeMove_ok_inv hok
  have hb : g'.board = setCell g.board row col.toNat tok := by
    rw [hg']; unfold applyDrop; split_ifs <;> rfl
  by_cases hw : checkWinCondition (setCell g.board row col.toNat tok) row col.toNat tok = true
  · have hwin : (if tok == RedToken then g.player1Id else g.player2Id) = pid := by
      rcases playerToken_inv hp with ⟨htok, hpid1⟩ | ⟨htok, hpid2⟩
      · subst htok; simp [hpid1]
      · subst htok; rw [if_neg (by decide)]; exact hpid2.symm
    have hst : g'.status = GameStatus.finished := by rw [hg', applyDrop_win now hw]
    have hwid : g'.winnerId = pid := by rw [hg', applyDrop_win now hw]; exact hwin
    refine ⟨tok, row, hp, hr, hb, fun _ => ⟨hst, hwid⟩, ?_, ?_, ?_⟩
    · intro hfalse _; rw [hb] at hfalse; exact absurd hw (by simp [hfalse])
    · intro hfalse _; rw [hb] at hfalse; exact absurd hw (by simp [hfalse])
    · exact ⟨fun _ => by rw [hb]; exact hw, fun _ => by rw [hwid]; exact hpid⟩
  · rw [Bool.not_eq_true] at hw
    by_cases hf : isBoardFull (setCell g.board row col.toNat tok) = true
    · have hst : g'.status = GameStatus.finished := by rw [hg', applyDrop_draw now hw hf]
      have hwid : g'.winnerId = "" := by rw [hg', applyDrop_draw now hw hf]; exact hw0
      refine ⟨tok, row, hp, hr, hb, ?_, fun _ _ => ⟨hst, hwid⟩, ?_, ?_⟩
      · intro htrue; rw [hb] at htrue; exact absurd htrue (by simp [hw])
      · intro _ hffalse; rw [hb] at hffalse; exact absurd hf (by simp [hffalse])
      · exact ⟨fun hne => absurd hwid hne,
          fun htrue => by rw [hb] at htrue; exact absurd htrue (by simp [hw])⟩
    · rw [Bool.not_eq_true] at hf
      have hst : g'.status = GameStatus.active := by
        rw [hg', applyDrop_cont now hw hf]; exact hs
      have hwid : g'.winnerId = "" := by rw [hg', applyDrop_cont now hw hf]; exact hw0
      refine ⟨tok, row, hp, hr, hb, ?_, ?_, fun _ _ => ⟨hst, hwid⟩, ?_⟩
      · intro htrue; rw [hb] at htrue; exact absurd htrue (by simp [hw])
      · intro _ hftrue; rw [hb] at hftrue; exact absurd hftrue (by simp [hf])
      · exact ⟨fun hne => absurd hwid hne,
          fun htrue => by rw [hb] at htrue; exact absurd htrue (by simp [hw])⟩

/-- Witness for C1: a concrete red move completing a vertical four finishes
the game with the mover as winner. -/
theorem makeMove_outcome_witness :
    ∃ tok row, playerToken gameVert "a" = some tok ∧
      findDropRow gameVert.board (0 : Int).toNat = some row ∧
      (MakeMove gameVert "a" 0 7).2.board = setCell gameVert.board row (0 : Int).toNat tok ∧
      (checkWinCondition (MakeMove gameVert "a" 0 7).2.board row (0 : Int).toNat tok = true →
        (MakeMove gameVert "a" 0 7).2.status = GameStatus.finished ∧
        (MakeMove gameVert "a" 0 7).2.winnerId = "a") ∧
      (checkWinCondition (MakeMove gameVert "a" 0 7).2.board row (0 : Int).toNat tok = false →
        isBoardFull (MakeMove gameVert "a" 0 7).2.board = true →
        (MakeMove gameVert "a" 0 7).2.status = GameStatus.finished ∧
        (MakeMove gameVert "a" 0 7).2.winnerId = "") ∧
      (checkWinCondition (MakeMove gameVert "a" 0 7).2.board row (0 : Int).toNat tok = false →
        isBoardFull (MakeMove gameVert "a" 0 7).2.board = false →
        (MakeMove gameVert "a" 0 7).2.status = GameStatus.active ∧
        (MakeMove gameVert "a" 0 7).2.winnerId = "") ∧
      ((MakeMove gameVert "a" 0 7).2.winnerId ≠ "" ↔
        checkWinCondition (MakeMove gameVert "a" 0 7).2.board row (0 : Int).toNat tok = true) :=
  makeMove_outcome gameVert "a" 0 7 (MakeMove gameVert "a" 0 7).2 (by decide) rfl (by decide)

/-- C2: an accepted move places the mover's token in the lowest empty row of
the chosen column (every row strictly below it is occupied) and changes no
other cell of the board. -/
theorem makeMove_places_lowest (g : Game) (pid : String) (col : Int) (now : Nat)
    (g' : Game) (hWF : WFBoard g.board)
    (hok : MakeMove g pid col now = (none, g')) :
    ∃ tok row, playerToken g pid = some tok ∧
      row < BoardHeight ∧
      getCell g.board row col.toNat = EmptyCell ∧
      (∀ r, row < r → r < BoardHeight → getCell g.board r col.toNat ≠ EmptyCell) ∧
      getCell g'.board row col.toNat = tok ∧
      (∀ r c, ¬(r = row ∧ c = col.toNat) → getCell g'.board r c = getCell g.board r c) := by
  obtain ⟨hs, tok, row, hp, ht, hc, hr, hg'⟩ := makeMove_ok_inv hok
  have hb : g'.board = setCell g.board row col.toNat tok := by
    rw [hg']; unfold applyDrop; split_ifs <;> rfl
  obtain ⟨hlt, hempty, hbelow⟩ := findDropRowAux_spec g.board col.toNat BoardHeight row hr
  have hcol : col.toNat < BoardWidth := by
    simp only [BoardWidth] at hc ⊢; omega
  refine ⟨tok, row, hp, hlt, hempty, hbelow, ?_, ?_⟩
  · rw [hb]
    apply getCell_setCell_eq
    · have := hWF.1; omega
    · rw [hWF.rowLen hlt]; exact hcol
  · intro r c hne
    rw [hb]
    exact getCell_setCell_ne _ _ _ _ _ _ hne

/-- Witness for C2: the concrete red drop into column 0 of `gameVert` lands in
row 2 (the lowest empty row there) and touches nothing else. -/
theorem makeMove_places_lowest_witness :
    ∃ tok row, playerToken gameVert "a" = some tok ∧
      row < BoardHeight ∧
      getCell gameVert.board row (0 : Int).toNat = EmptyCell ∧
      (∀ r, row < r → r < BoardHeight → getCell gameVert.board r (0 : Int).toNat ≠ EmptyCell) ∧
      getCell (MakeMove gameVert "a" 0 7).2.board row (0 : Int).toNat = tok ∧
      (∀ r c, ¬(r = row ∧ c = (0 : Int).toNat) →
        getCell (MakeMove gameVert "a" 0 7).2.board r c = getCell gameVert.board r c) :=
  makeMove_places_lowest gameVert "a" 0 7 (MakeMove gameVert "a" 0 7).2
    (by constructor <;> decide) (by decide)

lemma isValidMove_topEmpty {board : Board} {col : Nat}
    (h : isValidMove board (col : Int) = true) :
    getCell board 0 col = EmptyCell := by
  unfold isValidMove at h
  simp only [Bool.and_eq_true, decide_eq_true_eq, beq_iff_eq] at h
  simpa using h.2

lemma getNextAvailableRow_isSome {board : Board} {col : Nat}
    (h : isValidMove board (col : Int) = true) :
    (getNextAvailableRow board col).isSome :=
  findDropRow_isSome_of_topEmpty board col (isValidMove_topEmpty h)

lemma tick_neverExpire (st : BotState) : (tick neverExpire st).1 = false := rfl

lemma gnmLoop_legal (oracle : Nat → Bool) (bot : Bot) (depthLimit : Nat) (board : Board) :
    ∀ (cols : List Nat) (bestScore bestMove : Int) (st : BotState),
      (∀ c ∈ cols, c < BoardWidth) →
      (bestMove = -1 ∨ (0 ≤ bestMove ∧ bestMove < (BoardWidth : Int) ∧
        isValidMove board bestMove = true)) →
      (gnmLoop oracle bot depthLimit board cols bestScore bestMove st = -1 ∨
        (0 ≤ gnmLoop oracle bot depthLimit board cols bestScore bestMove st ∧
         gnmLoop oracle bot depthLimit board cols bestScore bestMove st < (BoardWidth : Int) ∧
         isValidMove board (gnmLoop oracle bot depthLimit board cols bestScore bestMove st) =
           true)) := by
  intro cols
  induction cols with
  | nil =>
    intro bs bm st _ hinv
    simpa [gnmLoop] using hinv
  | cons c rest ih =>
    intro bs bm st hmem hinv
    have hc7 : c < BoardWidth := hmem c (List.mem_cons_self c rest)
    have hrest : ∀ x ∈ rest, x < BoardWidth := fun x hx => hmem x (List.mem_cons_of_mem c hx)
    by_cases hv : isValidMove board (c : Int) = true
    · obtain ⟨row, hrow⟩ := Option.isSome_iff_exists.mp (getNextAvailableRow_isSome hv)
      rw [gnmLoop, if_pos hv, hrow]
      dsimp only
      split_ifs with hwn htick hbm hcmp
      · exact Or.inr ⟨Int.natCast_nonneg c, by exact_mod_cast hc7, hv⟩
      · exact Or.inr ⟨Int.natCast_nonneg c, by exact_mod_cast hc7, hv⟩
      · exact hinv
      · exact ih _ _ _ hrest
          (Or.inr ⟨Int.natCast_nonneg c, by exact_mod_cast hc7, hv⟩)
      · exact ih _ _ _ hrest hinv
    · rw [gnmLoop, if_neg hv]
      exact ih _ _ _ hrest hinv

/-- C5: whenever some column is legal (in range with an empty top cell),
`GetNextMove` returns a legal column — under every time-budget behaviour and
both depth settings — and `-1` is returned only when no column is legal. -/
theorem getNextMove_legal (oracle : Nat → Bool) (bot : Bot) (g : Game) :
    ((∃ c, c < BoardWidth ∧ isValidMove g.board (c : Int) = true) →
      0 ≤ GetNextMove oracle bot g ∧ GetNextMove oracle bot g < (BoardWidth : Int) ∧
      isValidMove g.board (GetNextMove oracle bot g) = true) ∧
    (GetNextMove oracle bot g = -1 →
      ¬∃ c, c < BoardWidth ∧ isValidMove g.board (c : Int) = true) := by
  have hloop := gnmLoop_legal oracle bot
    (if countEmptySlots g.board < BoardHeight * BoardWidth / 3 then 9 else MaxDepth)
    g.board (List.range BoardWidth) minInt32 (-1)
    { transTable := [], nodes := 0, clock := 0 }
    (fun c hc => List.mem_range.mp hc) (Or.inl rfl)
  rcases hloop with h1 | h1
  · have hg : GetNextMove oracle bot g =
        (match (List.range BoardWidth).find?
            (fun (col : Nat) => isValidMove g.board (col : Int)) with
          | some col => (col : Int)
          | none => -1) := by
      unfold GetNextMove
      dsimp only
      rw [h1]
      rfl
    constructor
    · rintro ⟨c, hc, hv⟩
      have hsome : ((List.range BoardWidth).find?
          (fun (col : Nat) => isValidMove g.board (col : Int))).isSome :=
        List.find?_isSome.mpr ⟨c, List.mem_range.mpr hc, hv⟩
      obtain ⟨c', hc'⟩ := Option.isSome_iff_exists.mp hsome
      have hres : GetNextMove oracle bot g = (c' : Int) := by rw [hg, hc']
      rw [hres]
      have hm := List.mem_range.mp (List.mem_of_find?_eq_some hc')
      have hp := List.find?_some hc'
      exact ⟨Int.natCast_nonneg c', by exact_mod_cast hm, hp⟩
    · intro hm1
      rw [hg] at hm1
      rintro ⟨c, hc, hv⟩
      rcases hfind : (List.range BoardWidth).find?
          (fun (col : Nat) => isValidMove g.board (col : Int)) with _ | c'
      · exact List.find?_eq_none.mp hfind c (List.mem_range.mpr hc) hv
      · rw [hfind] at hm1
        have h2 : (c' : Int) = -1 := hm1
        omega
  · obtain ⟨hge, hlt, hv⟩ := h1
    have hg : GetNextMove oracle bot g = gnmLoop oracle bot
        (if countEmptySlots g.board < BoardHeight * BoardWidth / 3 then 9 else MaxDepth)
        g.board (List.range BoardWidth) minInt32 (-1)
        { transTable := [], nodes := 0, clock := 0 } := by
      unfold GetNextMove
      dsimp only
      rw [if_neg (by simp only [beq_iff_eq]; omega)]
    constructor
    · intro _
      rw [hg]
      exact ⟨hge, hlt, hv⟩
    · intro hm1
      rw [hg] at hm1
      omega

/-- Witness for C5: on the concrete position `gameCut` (which has legal
columns) and under the early-expiring clock, the returned column is legal. -/
theorem getNextMove_legal_witness :
    0 ≤ GetNextMove expireAfterOne botRed gameCut ∧
    GetNextMove expireAfterOne botRed gameCut < (BoardWidth : Int) ∧
    isValidMove gameCut.board (GetNextMove expireAfterOne botRed gameCut) = true :=
  (getNextMove_legal expireAfterOne botRed gameCut).1 ⟨0, by decide, by decide⟩

lemma isWinningMove_inv {board : Board} {tok : Nat} {c : Nat}
    (h : isWinningMove board tok c = true) :
    ∃ row, getNextAvailableRow board c = some row ∧
      botCheckWin (setCell board row c tok) row c tok = true := by
  unfold isWinningMove at h
  rcases hrow : getNextAvailableRow board c with _ | row
  · rw [hrow] at h; simp at h
  · rw [hrow] at h; exact ⟨row, rfl, h⟩

lemma gnmLoop_finds_win (bot : Bot) (depthLimit : Nat) (board : Board) :
    ∀ (cols : List Nat) (bestScore bestMove : Int) (st : BotState),
      (∃ c ∈ cols, isValidMove board (c : Int) = true ∧
        isWinningMove board bot.playerToken c = true) →
      ∃ c ∈ cols, isValidMove board (c : Int) = true ∧
        isWinningMove board bot.playerToken c = true ∧
        gnmLoop neverExpire bot depthLimit board cols bestScore bestMove st = (c : Int) := by
  intro cols
  induction cols with
  | nil =>
    rintro bs bm st ⟨c, hc, _⟩
    exact absurd hc (List.not_mem_nil c)
  | cons c rest ih =>
    rintro bs bm st ⟨w, hw, hwv, hww⟩
    by_cases hv : isValidMove board (c : Int) = true
    · obtain ⟨row, hrow⟩ := Option.isSome_iff_exists.mp (getNextAvailableRow_isSome hv)
      rw [gnmLoop, if_pos hv, hrow]
      dsimp only
      by_cases hwn : botCheckWin (setCell board row c bot.playerToken) row c
          bot.playerToken = true
      · rw [if_pos hwn]
        refine ⟨c, List.mem_cons_self c rest, hv, ?_, rfl⟩
        unfold isWinningMove
        rw [hrow]
        exact hwn
      · rw [if_neg hwn, if_neg (by rw [tick_neverExpire]; exact Bool.false_ne_true)]
        have hwrest : w ∈ rest := by
          rcases List.mem_cons.mp hw with hwc | hwr
          · subst hwc
            obtain ⟨row', hrow', hwin'⟩ := isWinningMove_inv hww
            rw [hrow] at hrow'
            cases hrow'
            exact absurd hwin' hwn
          · exact hwr
        split_ifs with hcmp
        · obtain ⟨c', hc', hv', hw', hres⟩ := ih _ _ _ ⟨w, hwrest, hwv, hww⟩
          exact ⟨c', List.mem_cons_of_mem c hc', hv', hw', hres⟩
        · obtain ⟨c', hc', hv', hw', hres⟩ := ih _ _ _ ⟨w, hwrest, hwv, hww⟩
          exact ⟨c', List.mem_cons_of_mem c hc', hv', hw', hres⟩
    · rw [gnmLoop, if_neg hv]
      have hwrest : w ∈ rest := by
        rcases List.mem_cons.mp hw with hwc | hwr
        · subst hwc; exact absurd hwv hv
        · exact hwr
      obtain ⟨c', hc', hv', hw', hres⟩ := ih _ _ _ ⟨w, hwrest, hwv, hww⟩
      exact ⟨c', List.mem_cons_of_mem c hc', hv', hw', hres⟩

/-- C4 (amended): when the time budget is never exhausted, `GetNextMove`
returns an immediately winning column whenever one exists, under either depth
setting (the depth limit is chosen inside from the board). -/
theorem getNextMove_wins_if_no_timeout (bot : Bot) (g : Game)
    (h : ∃ c, c < BoardWidth ∧ isValidMove g.board (c : Int) = true ∧
      isWinningMove g.board bot.playerToken c = true) :
    ∃ c, c < BoardWidth ∧ isValidMove g.board (c : Int) = true ∧
      isWinningMove g.board bot.playerToken c = true ∧
      GetNextMove neverExpire bot g = (c : Int) := by
  obtain ⟨c, hc, hv, hw⟩ := h
  obtain ⟨c', hc', hv', hw', hres⟩ := gnmLoop_finds_win bot
    (if countEmptySlots g.board < BoardHeight * BoardWidth / 3 then 9 else MaxDepth)
    g.board (List.range BoardWidth) minInt32 (-1)
    { transTable := [], nodes := 0, clock := 0 }
    ⟨c, List.mem_range.mpr hc, hv, hw⟩
  refine ⟨c', List.mem_range.mp hc', hv', hw', ?_⟩
  unfold GetNextMove
  dsimp only
  rw [hres, if_neg (by simp only [beq_iff_eq]; omega)]

/-- Witness for C4 (amended): on `gameCut`, column 1 wins at once for red, and
with the never-expiring clock the returned column is a winning one. -/
theorem getNextMove_wins_if_no_timeout_witness :
    ∃ c, c < BoardWidth ∧ isValidMove gameCut.board (c : Int) = true ∧
      isWinningMove gameCut.board botRed.playerToken c = true ∧
      GetNextMove neverExpire botRed gameCut = (c : Int) :=
  getNextMove_wins_if_no_timeout botRed gameCut ⟨1, by decide, by decide, by decide⟩

/-- Counterexample to C4 as stated: on `gameCut`, column 1 is a legal
immediately winning column for the bot's own token, yet under the (monotone,
hence realizable) time-budget state `expireAfterOne` the elapsed-time break
fires after scoring column 0 and `GetNextMove` returns column 0, which is not
winning.  The win check is interleaved with the search, not run up front, so
the result does depend on the time budget. -/
theorem getNextMove_timeout_misses_win :
    isValidMove gameCut.board (1 : Int) = true ∧
    isWinningMove gameCut.board botRed.playerToken 1 = true ∧
    GetNextMove expireAfterOne botRed gameCut = 0 ∧
    isWinningMove gameCut.board botRed.playerToken 0 = false := by
  exact ⟨by decide, by decide, by decide, by decide⟩

/-- Counterexample to C6 as stated: with one waiting online game created by
"alice" herself in the registry, the persistent-lobby path (via
`FindWaitingGame`, which tests only `status == waiting`) joins that game —
pairing "alice" with herself — while the one-shot path (whose predicate also
requires an online type, an empty second seat and a different first seat)
creates a new game.  The two entry paths select by different predicates. -/
theorem matchmaking_paths_diverge :
    FindWaitingGame regAlice = some (NewGame GameType.online "alice" "" "g0" 0) ∧
    lobbyJoin regAlice "alice" "g1" 1 =
      MMOutcome.matched (joinGameAs (NewGame GameType.online "alice" "" "g0" 0) "alice") ∧
    MatchMaking regAlice "alice" "g1" 1 =
      MMOutcome.created (NewGame GameType.online "alice" "" "g1" 1) ∧
    matchPred "alice" (NewGame GameType.online "alice" "" "g0" 0) = false := by
  exact ⟨by decide, by decide, by decide, by decide⟩

/-- C6 (amended): the one-shot path joins exactly when some game is online,
waiting, with an empty second seat and a different first seat; the
persistent-lobby path joins exactly when some game has waiting status,
regardless of type, second seat or first seat; when their respective scans
fail, both create the same new waiting online game with the requester as
first seat. -/
theorem matchmaking_selection (reg : List Game) (pid newId : String) (now : Nat) :
    ((∃ g', MatchMaking reg pid newId now = MMOutcome.matched g') ↔
      ∃ g ∈ reg, matchPred pid g = true) ∧
    ((∃ g', lobbyJoin reg pid newId now = MMOutcome.matched g') ↔
      ∃ g ∈ reg, g.status = GameStatus.waiting) ∧
    ((¬∃ g ∈ reg, matchPred pid g = true) →
      MatchMaking reg pid newId now =
        MMOutcome.created (NewGame GameType.online pid "" newId now)) ∧
    ((¬∃ g ∈ reg, g.status = GameStatus.waiting) →
      lobbyJoin reg pid newId now =
        MMOutcome.created (NewGame GameType.online pid "" newId now)) := by
  refine ⟨⟨?_, ?_⟩, ⟨?_, ?_⟩, ?_, ?_⟩
  · rintro ⟨g', hg'⟩
    unfold MatchMaking at hg'
    rcases hfind : reg.find? (matchPred pid) with _ | g0
    · rw [hfind] at hg'; exact absurd hg' (by simp)
    · exact ⟨g0, List.mem_of_find?_eq_some hfind, List.find?_some hfind⟩
  · rintro ⟨g0, hmem, hpred⟩
    obtain ⟨g1, hg1⟩ := Option.isSome_iff_exists.mp (List.find?_isSome.mpr ⟨g0, hmem, hpred⟩)
    exact ⟨joinGameAs g1 pid, by unfold MatchMaking; rw [hg1]⟩
  · rintro ⟨g', hg'⟩
    unfold lobbyJoin FindWaitingGame at hg'
    rcases hfind : reg.find? (fun g => g.status == GameStatus.waiting) with _ | g0
    · rw [hfind] at hg'; exact absurd hg' (by simp)
    · have hp := List.find?_some hfind
      exact ⟨g0, List.mem_of_find?_eq_some hfind, by simpa using hp⟩
  · rintro ⟨g0, hmem, hst⟩
    have hb : (g0.status == GameStatus.waiting) = true := by simpa using hst
    have hsome : (reg.find? (fun g => g.status == GameStatus.waiting)).isSome :=
      List.find?_isSome.mpr ⟨g0, hmem, hb⟩
    obtain ⟨g1, hg1⟩ := Option.isSome_iff_exists.mp hsome
    exact ⟨joinGameAs g1 pid, by unfold lobbyJoin FindWaitingGame; rw [hg1]⟩
  · intro hnone
    have hfind : reg.find? (matchPred pid) = none :=
      List.find?_eq_none.mpr fun g hg hpred => hnone ⟨g, hg, hpred⟩
    unfold MatchMaking
    rw [hfind]
  · intro hnone
    have hfind : reg.find? (fun g => g.status == GameStatus.waiting) = none :=
      List.find?_eq_none.mpr fun g hg hpred => hnone ⟨g, hg, by simpa using hpred⟩
    unfold lobbyJoin FindWaitingGame
    rw [hfind]

/-- Witness for C6 (amended): against the one-game registry `regAlice`, a
different requester "bob" is joined by both paths. -/
theorem matchmaking_selection_witness :
    (∃ g', MatchMaking regAlice "bob" "g1" 1 = MMOutcome.matched g') ∧
    (∃ g', lobbyJoin regAlice "bob" "g1" 1 = MMOutcome.matched g') :=
  ⟨(matchmaking_selection regAlice "bob" "g1" 1).1.mpr
      ⟨NewGame GameType.online "alice" "" "g0" 0, by decide, by decide⟩,
    (matchmaking_selection regAlice "bob" "g1" 1).2.1.mpr
      ⟨NewGame GameType.online "alice" "" "g0" 0, by decide, by decide⟩⟩

/-- Counterexample to C7 as stated: `gameBotWon` is a finished game whose bot
(yellow, second seat) won; resolving the handshake with `confirm:true` gives
the bot the first turn, yet the broadcast state has a completely empty board —
no bot move was applied before the broadcast, because the socket reset path
never invokes the agent. -/
theorem resetConfirm_skips_bot_move :
    gameBotWon.player2Id = "bot" ∧
    (resolveResetConfirm gameBotWon "alice" true 9).currentTurn = YellowToken ∧
    countEmptySlots (resolveResetConfirm gameBotWon "alice" true 9).board =
      BoardHeight * BoardWidth := by
  exact ⟨by decide, by decide, by decide⟩

/-- C7 (amended): a participant's `resetConfirm{confirm:true}` yields an empty
board, active status, cleared `winnerId`, refreshed timestamp and
`currentTurn` yellow exactly when the previous `winnerId` equals `player2Id`
(the previous winner's token; red on a draw against a non-empty second seat) —
and no bot move is applied, the board staying exactly `NewBoard`;
`resetConfirm{confirm:false}` changes nothing, whoever sends it. -/
theorem resetConfirm_resolution (g : Game) (pid : String) (now : Nat)
    (hp : pid = g.player1Id ∨ pid = g.player2Id) :
    ((resolveResetConfirm g pid true now).board = NewBoard ∧
     (resolveResetConfirm g pid true now).status = GameStatus.active ∧
     (resolveResetConfirm g pid true now).winnerId = "" ∧
     (resolveResetConfirm g pid true now).lastMoveTime = now ∧
     (g.winnerId = g.player2Id →
       (resolveResetConfirm g pid true now).currentTurn = YellowToken) ∧
     (g.winnerId ≠ g.player2Id →
       (resolveResetConfirm g pid true now).currentTurn = RedToken)) ∧
    (∀ q, resolveResetConfirm g q false now = g) := by
  have hcond : ¬(pid ≠ g.player1Id ∧ pid ≠ g.player2Id) := by
    rcases hp with h | h <;> simp [h]
  constructor
  · unfold resolveResetConfirm
    rw [if_neg hcond, if_pos rfl]
    refine ⟨rfl, rfl, rfl, rfl, ?_, ?_⟩
    · intro hw
      simp only [Game.currentTurn]
      rw [if_pos (by simpa using hw)]
    · intro hw
      simp only [Game.currentTurn]
      rw [if_neg (by simpa using hw)]
  · intro q
    unfold resolveResetConfirm
    split_ifs with h1 h2 h3
    · rfl
    · exact h2.elim
    · exact h2.elim
    · rfl

/-- Witness for C7 (amended): resolving on the finished `gameP1Won` (player 1,
red, won) gives red the first turn over an empty board, and a `confirm:false`
from player 2 changes nothing. -/
theorem resetConfirm_resolution_witness :
    (resolveResetConfirm gameP1Won "a" true 5).board = NewBoard ∧
    (resolveResetConfirm gameP1Won "a" true 5).status = GameStatus.active ∧
    (resolveResetConfirm gameP1Won "a" true 5).winnerId = "" ∧
    (resolveResetConfirm gameP1Won "a" true 5).lastMoveTime = 5 ∧
    (resolveResetConfirm gameP1Won "a" true 5).currentTurn = RedToken ∧
    resolveResetConfirm gameP1Won "b" false 5 = gameP1Won := by
  have h := resetConfirm_resolution gameP1Won "a" 5 (Or.inl rfl)
  exact ⟨h.1.1, h.1.2.1, h.1.2.2.1, h.1.2.2.2.1, h.1.2.2.2.2.2 (by decide), h.2 "b"⟩

/-- Counterexample to C8 as stated: a `resetConfirm{confirm:true}` from a
participant arriving in the idle state — no `resetRequest` was ever sent —
still resets the game (finished becomes active), because the connection loop
keeps no handshake state at all. -/
theorem resetConfirm_without_request_changes_state :
    gameP1Won.status = GameStatus.finished ∧
    (runMessages gameP1Won [(InMsg.resetConfirm "a" true, 11)]).status =
      GameStatus.active := by
  exact ⟨by decide, by decide⟩

/-- C8 (amended): the message loop keeps no handshake state: a participant's
`resetConfirm{confirm:true}` resolves identically with or without a preceding
`resetRequest` (from anyone, including the confirmer themself), it resets the
game even straight from the idle state, and only a non-participant's confirm
is ignored. -/
theorem resetConfirm_ignores_handshake_state (g : Game) (pid other : String)
    (n1 n2 : Nat) (hp : pid = g.player1Id ∨ pid = g.player2Id) :
    runMessages g [(InMsg.resetRequest other, n1), (InMsg.resetConfirm pid true, n2)] =
      runMessages g [(InMsg.resetConfirm pid true, n2)] ∧
    (runMessages g [(InMsg.resetConfirm pid true, n2)]).status = GameStatus.active ∧
    (∀ q c n, q ≠ g.player1Id → q ≠ g.player2Id →
      runMessages g [(InMsg.resetConfirm q c, n)] = g) := by
  refine ⟨rfl, ?_, ?_⟩
  · have hcond : ¬(pid ≠ g.player1Id ∧ pid ≠ g.player2Id) := by
      rcases hp with h | h <;> simp [h]
    show (resolveResetConfirm g pid true n2).status = GameStatus.active
    unfold resolveResetConfirm
    rw [if_neg hcond, if_pos rfl]
  · intro q c n hq1 hq2
    show resolveResetConfirm g q c n = g
    unfold resolveResetConfirm
    rw [if_pos ⟨hq1, hq2⟩]

/-- Witness for C8 (amended): player 2 of the finished `gameP1Won` confirms
with no prior request (and with a redundant request by themself), and an
outsider's confirm is ignored. -/
theorem resetConfirm_ignores_handshake_state_witness :
    runMessages gameP1Won
        [(InMsg.resetRequest "b", 1), (InMsg.resetConfirm "b" true, 2)] =
      runMessages gameP1Won [(InMsg.resetConfirm "b" true, 2)] ∧
    (runMessages gameP1Won [(InMsg.resetConfirm "b" true, 2)]).status =
      GameStatus.active ∧
    (∀ q c n, q ≠ gameP1Won.player1Id → q ≠ gameP1Won.player2Id →
      runMessages gameP1Won [(InMsg.resetConfirm q c, n)] = gameP1Won) :=
  resetConfirm_ignores_handshake_state gameP1Won "b" "b" 1 2 (Or.inr rfl)

end Connect4
